import Mathlib

/-!
# mqplay: publisher client and delivery dispatcher

A shallow embedding of `internal/publisher/mq.go` (the `MQ` client: `New`,
`watchConnection`, `watchChannel`, `reinitExchanges`, `ConnectToExchange`,
`Send`) and of the serve loop of `internal/api/mq/api.go` (`API.Run`,
`handlers`, `handleAlarm`, `handleState`).

Modelling conventions.

* The broker library (`amqp.Dial`, `Connection.Channel`, `Channel.ExchangeDeclare`,
  `Channel.Publish`) is an environment `Env σ` of oracles over an arbitrary
  state `σ`; every operation threads that state, so an oracle may answer the
  same call differently at different times.
* Every operation returns the list of `Event`s it performed: broker calls
  (with their results), sends on `errc` and `readyc`, and sleeps.  Logging is
  not modelled.
* A Go `error` is an `Option String` (`none` is `nil`); a pointer to a
  connection or channel is an `Option Nat` (`none` is `nil`).
* A call that panics does not return: `MQ.Send` then gives `none`, the serve
  loop gives `Served.panicked`, and the running client is marked `crashed`.
* A `for` loop that never returns is a step function applied once per
  scheduling decision; a goroutine blocked on a channel receive is at program
  point `Pc.waiting` and its next step is the completion of that receive.
* The goroutines share the fields of `MQ` without synchronisation; a run
  interleaves whole steps, so the reads of `s.conn` and `s.ch` inside one step
  see one value. Sends on `errc` and `readyc` are events and do not block.
-/

namespace mqplay

/-- Go error values: `none` is the nil error, `some m` an error with message `m`. -/
abbrev GoError := Option String

/-- Identity of an `*amqp.Connection`. -/
abbrev ConnHandle := Nat

/-- Identity of an `*amqp.Channel`. -/
abbrev ChanHandle := Nat

/-- The function `errors.New` of `github.com/pkg/errors`. -/
def errors.New (message : String) : GoError := some message

/-- The function `errors.Wrap` of `github.com/pkg/errors`: nil stays nil, otherwise the
message is put in front of the cause. -/
def errors.Wrap (err : GoError) (message : String) : GoError :=
  err.map fun cause => message ++ ": " ++ cause

namespace publisher

/-- The type `MQType` (a `uint8`). -/
abbrev MQType := Nat

/-- The constant `Unknown MQType = iota`. -/
def Unknown : MQType := 0

/-- The constant `Publisher`: serves publish methods. -/
def Publisher : MQType := 1

/-- The constant `Consumer`: consumes messages. -/
def Consumer : MQType := 2

/-- The struct `Exchange`, as used by `mq.go` (fields `Name` and `Etype`). -/
structure Exchange where
  Name : String
  Etype : String
deriving DecidableEq, Repr

/-- The part of `amqp.Publishing` that `Send` fills in. -/
structure Publishing where
  ContentType : String
  Body : List Nat
deriving DecidableEq, Repr

/-- The result of a call that returns a handle or an error. -/
inductive Answer where
  | ok (handle : Nat)
  | error (message : String)
deriving DecidableEq, Repr

/-- What a closure-notification channel can be registered on. -/
inductive Handle where
  | conn (c : ConnHandle)
  | chan (h : ChanHandle)
deriving DecidableEq, Repr

/-- Observable actions of the client. Broker calls carry their arguments and result. -/
inductive Event where
  | Dial (url : String) (res : Answer)
  | Channel (c : ConnHandle) (res : Answer)
  | NotifyClose (target : Handle)
  | ExchangeDeclare (ch : ChanHandle) (name kind : String)
      (durable autoDelete internal noWait : Bool) (res : GoError)
  | Publish (ch : ChanHandle) (exchange key : String)
      (mandatory immediate : Bool) (msg : Publishing) (res : GoError)
  | errc (err : GoError)
  | readyc
  | Sleep (seconds : Nat)
deriving DecidableEq, Repr

/-- The map type `map[string]Exchange`: finite, at most one entry per key. -/
abbrev Registry := AList (fun _ : String => Exchange)

/-- The struct `MQ`. The channels `readyc` and `errc` appear as events, the logger is
left out. -/
structure MQ where
  amqpURL : String
  firstRun : Bool
  conn : Option ConnHandle
  ch : Option ChanHandle
  atype : MQType
  exchanges : Registry
deriving DecidableEq

/-- The broker library and the Go runtime, as oracles over a state `σ`. The oracles
answer calls made on a handle that is not nil; what a call on a nil handle does is
stated where the code makes one. `rangeOrder` is the order in which a `range` over a map visits its entries:
unspecified, but each entry exactly once. -/
structure Env (σ : Type) where
  Dial : σ → String → σ × Answer
  Channel : σ → ConnHandle → σ × Answer
  ExchangeDeclare : σ → ChanHandle → String → String → Bool → Bool → Bool → Bool → σ × GoError
  Publish : σ → ChanHandle → String → String → Bool → Bool → Publishing → σ × GoError
  rangeOrder : σ → List (Sigma fun _ : String => Exchange) → List (Sigma fun _ : String => Exchange)
  rangeOrder_perm : ∀ w l, (rangeOrder w l).Perm l

/-- What a method call leaves behind: the environment state, the client, the returned
value and the events performed, oldest first. -/
structure Outcome (σ : Type) (α : Type) where
  world : σ
  mq : MQ
  ret : α
  events : List Event

/-- The function `New`: opens the connection, does not declare any exchange. On success
the three watchers are started on the returned client. -/
def New {σ : Type} (E : Env σ) (w : σ) (amqpURL : String) (atype : MQType) :
    σ × Option MQ × GoError × List Event :=
  let atype := if atype = Unknown then Publisher else atype
  match E.Dial w amqpURL with
  | (w1, Answer.error e) =>
    (w1, none, errors.Wrap (some e) "unable to connect to amqp", [Event.Dial amqpURL (Answer.error e)])
  | (w1, Answer.ok conn) =>
    (w1,
      some { amqpURL := amqpURL, conn := some conn, firstRun := true, atype := atype,
             exchanges := ∅, ch := none },
      none, [Event.Dial amqpURL (Answer.ok conn)])

/-- The body of the loop of `reinitExchanges`, over the entries in visiting order: declare,
report a failure on `errc`, go on with the next entry (the trailing
`if s.atype == Publisher continue` changes nothing). -/
def reinitLoop {σ : Type} (E : Env σ) (ch : ChanHandle) : List Exchange → σ → σ × List Event
  | [], w => (w, [])
  | v :: vs, w =>
    let r := E.ExchangeDeclare w ch v.Name v.Etype false false false false
    let call := Event.ExchangeDeclare ch v.Name v.Etype false false false false r.2
    let rest := reinitLoop E ch vs r.1
    match r.2 with
    | some e => (rest.1, call :: Event.errc (some e) :: rest.2)
    | none => (rest.1, call :: rest.2)

/-- The method `MQ.reinitExchanges`. -/
def MQ.reinitExchanges {σ : Type} (E : Env σ) (w : σ) (s : MQ) : Outcome σ Unit :=
  match s.ch with
  | none => { world := w, mq := s, ret := (), events := [] }
  | some ch =>
    let r := reinitLoop E ch ((E.rangeOrder w s.exchanges.entries).map Sigma.snd) w
    { world := r.1, mq := s, ret := (), events := r.2 }

/-- The method `MQ.ConnectToExchange`: declares a new exchange and records it. -/
def MQ.ConnectToExchange {σ : Type} (E : Env σ) (w : σ) (s : MQ) (name etype : String) :
    Outcome σ GoError :=
  match s.conn with
  | none => { world := w, mq := s, ret := errors.New "not connected to mq", events := [] }
  | some _ =>
    match s.ch with
    | none => { world := w, mq := s, ret := errors.New "channel is closed", events := [] }
    | some ch =>
      match s.exchanges.lookup name with
      | some _ => { world := w, mq := s, ret := none, events := [] }
      | none =>
        let r := E.ExchangeDeclare w ch name etype false false false false
        let call := Event.ExchangeDeclare ch name etype false false false false r.2
        match r.2 with
        | some e =>
          { world := r.1, mq := s, ret := errors.Wrap (some e) "unable to declare exchange",
            events := [call] }
        | none =>
          { world := r.1,
            mq := { s with exchanges := s.exchanges.insert name { Name := name, Etype := etype } },
            ret := none, events := [call] }

/-- The method `MQ.Send`: publishes a message to an exchange. The result is `none` when
the call panics: `Send` does not check `s.ch`, and `Publish` on a nil `*amqp.Channel`
dereferences the nil pointer before anything reaches the broker, so the call never
returns. -/
def MQ.Send {σ : Type} (E : Env σ) (w : σ) (s : MQ) (name : String) (data : List Nat)
    (routingKey : String) : Option (Outcome σ GoError) :=
  if s.atype = Consumer then
    some { world := w, mq := s, ret := errors.New "mq client is not for sending", events := [] }
  else
    match s.exchanges.lookup name with
    | none =>
      some { world := w, mq := s, ret := errors.New "exchange has not been created",
             events := [] }
    | some _ =>
      let msg : Publishing := { ContentType := "application/json", Body := data }
      match s.ch with
      | none => none
      | some ch =>
        let r := E.Publish w ch name routingKey false false msg
        some { world := r.1, mq := s, ret := r.2,
               events := [Event.Publish ch name routingKey false false msg r.2] }

/-- Program points of a watcher loop: `top` is the head of the `for` loop, `waiting` is
the receive `errClose = <-closeNotify`, where the goroutine blocks. -/
inductive Pc where
  | top
  | waiting
deriving DecidableEq, Repr

/-- Local state of a watcher goroutine: its program point and the handles on which its
own `closeNotify` channel has been registered by `NotifyClose`. The broker library sends
on that channel when a handle it is registered on closes; the step functions take the
received value as an input and do not decide whether a receive can complete. -/
structure Watcher where
  pc : Pc
  registered : List Handle
deriving DecidableEq

/-- The client together with the goroutines started by `runWatchers`. `crashed` is set
once a goroutine has panicked, which ends the process. -/
structure System (σ : Type) where
  world : σ
  mq : MQ
  connWatcher : Watcher
  chanWatcher : Watcher
  crashed : Bool

/-- The method `runWatchers`: both watchers start at the head of their loop, with a fresh
`closeNotify` channel each (`watchErrors` only logs what is sent on `errc`). -/
def MQ.runWatchers {σ : Type} (w : σ) (s : MQ) : System σ :=
  { world := w, mq := s,
    connWatcher := { pc := Pc.top, registered := [] },
    chanWatcher := { pc := Pc.top, registered := [] },
    crashed := false }

/-- One scheduling step of `watchConnection`. At `top` it runs the loop body up to the
receive (or up to `continue`); at `waiting` the receive completes with `recv` and the
rest of the body runs. -/
def System.watchConnection {σ : Type} (E : Env σ) (recv : GoError) (t : System σ) :
    System σ × List Event :=
  match t.connWatcher.pc with
  | Pc.top =>
    match t.mq.conn with
    | none =>
      match E.Dial t.world t.mq.amqpURL with
      | (w1, Answer.error e) =>
        ({ t with world := w1, mq := { t.mq with conn := none } },
          [Event.Dial t.mq.amqpURL (Answer.error e), Event.errc (some e)])
      | (w1, Answer.ok c) =>
        ({ t with world := w1, mq := { t.mq with conn := some c },
                  connWatcher := { pc := Pc.waiting,
                                   registered := Handle.conn c :: t.connWatcher.registered } },
          [Event.Dial t.mq.amqpURL (Answer.ok c), Event.NotifyClose (Handle.conn c)])
    | some _ => ({ t with connWatcher := { t.connWatcher with pc := Pc.waiting } }, [])
  | Pc.waiting =>
    ({ t with mq := { t.mq with conn := none },
              connWatcher := { t.connWatcher with pc := Pc.top } },
      [Event.errc recv, Event.Sleep 5])

/-- One scheduling step of `watchChannel`, cut at the same points as `watchConnection`. -/
def System.watchChannel {σ : Type} (E : Env σ) (recv : GoError) (t : System σ) :
    System σ × List Event :=
  match t.chanWatcher.pc with
  | Pc.top =>
    match t.mq.conn with
    | none => (t, [Event.Sleep 10])
    | some c =>
      match t.mq.ch with
      | none =>
        match E.Channel t.world c with
        | (w1, Answer.error e) =>
          ({ t with world := w1, mq := { t.mq with ch := none } },
            [Event.Channel c (Answer.error e), Event.errc (some e)])
        | (w1, Answer.ok h) =>
          let r := MQ.reinitExchanges E w1 { t.mq with ch := some h }
          let opened := [Event.Channel c (Answer.ok h), Event.NotifyClose (Handle.conn c)]
          let watcher : Watcher :=
            { pc := Pc.waiting, registered := Handle.conn c :: t.chanWatcher.registered }
          if r.mq.firstRun then
            ({ t with world := r.world, mq := { r.mq with firstRun := false },
                      chanWatcher := watcher },
              opened ++ r.events ++ [Event.readyc])
          else
            ({ t with world := r.world, mq := r.mq, chanWatcher := watcher },
              opened ++ r.events)
      | some _ => ({ t with chanWatcher := { t.chanWatcher with pc := Pc.waiting } }, [])
  | Pc.waiting =>
    ({ t with mq := { t.mq with ch := none },
              chanWatcher := { t.chanWatcher with pc := Pc.top } },
      [Event.errc recv, Event.Sleep 10])

/-- What can happen next to a running client: one of the two watchers moves (a watcher at
`waiting` receives `recv` from its `closeNotify`), or the owner of the client calls
one of its methods. -/
inductive Action where
  | watchConnection (recv : GoError)
  | watchChannel (recv : GoError)
  | ConnectToExchange (name etype : String)
  | Send (name : String) (data : List Nat) (routingKey : String)
deriving DecidableEq, Repr

/-- One step of the running client. Nothing moves after a panic; a `Send` that panics
takes the process down. -/
def System.step {σ : Type} (E : Env σ) (a : Action) (t : System σ) : System σ × List Event :=
  if t.crashed then (t, [])
  else
    match a with
    | Action.watchConnection recv => t.watchConnection E recv
    | Action.watchChannel recv => t.watchChannel E recv
    | Action.ConnectToExchange name etype =>
      let r := t.mq.ConnectToExchange E t.world name etype
      ({ t with world := r.world, mq := r.mq }, r.events)
    | Action.Send name data routingKey =>
      match t.mq.Send E t.world name data routingKey with
      | none => ({ t with crashed := true }, [])
      | some r => ({ t with world := r.world, mq := r.mq }, r.events)

/-- The state reached after a sequence of steps. -/
def System.after {σ : Type} (E : Env σ) (t : System σ) : List Action → System σ
  | [] => t
  | a :: as => System.after E (t.step E a).1 as

/-- The events of each step of a run, one list per step. -/
def System.run {σ : Type} (E : Env σ) (t : System σ) : List Action → List (List Event)
  | [] => []
  | a :: as => (t.step E a).2 :: System.run E (t.step E a).1 as

/-- Whether the events of a step contain a successful `Connection.Channel` call. -/
def opensChannel (evs : List Event) : Bool :=
  evs.any fun e =>
    match e with
    | Event.Channel _ (Answer.ok _) => true
    | _ => false

/-- The arguments of an `ExchangeDeclare` call, without its result. -/
structure DeclareCall where
  ch : ChanHandle
  name : String
  kind : String
  durable : Bool
  autoDelete : Bool
  internal : Bool
  noWait : Bool
deriving DecidableEq, Repr

/-- The `ExchangeDeclare` call of an event, when it is one. -/
def Event.declared : Event → Option DeclareCall
  | Event.ExchangeDeclare ch name kind durable autoDelete internal noWait _ =>
    some { ch := ch, name := name, kind := kind, durable := durable,
           autoDelete := autoDelete, internal := internal, noWait := noWait }
  | _ => none

/-- The error returned by a failed `ExchangeDeclare` call. -/
def Event.declareFailure : Event → Option GoError
  | Event.ExchangeDeclare _ _ _ _ _ _ _ (some e) => some (some e)
  | _ => none

/-- The value sent on `errc`, when the event is such a send. -/
def Event.reported : Event → Option GoError
  | Event.errc err => some err
  | _ => none

end publisher

namespace mq

/-- The fields of `amqp.Delivery` that the serve loop and the handlers read. `Kind` is the
field `Type` (a reserved word here): the message type property. -/
structure Delivery where
  Exchange : String
  Kind : String
  Body : List Nat
  Redelivered : Bool
deriving DecidableEq, Repr

/-- The acknowledgement calls on a delivery: `d.Ack(multiple)` and `d.Nack(multiple, requeue)`. -/
inductive Disposition where
  | Ack (multiple : Bool)
  | Nack (multiple requeue : Bool)
deriving DecidableEq, Repr

/-- The type `handler`; the context only carries the logger and the handle id. -/
abbrev handler := Delivery → GoError

/-- The function `json.Unmarshal`, by name of the struct decoded into. -/
structure Json where
  Unmarshal : List Nat → String → GoError

/-- The function `handleAlarm`. -/
def handleAlarm (J : Json) : handler := fun d =>
  match J.Unmarshal d.Body "AlarmEvent" with
  | some e => errors.Wrap (some e) "unable to unmarshal data"
  | none => none

/-- The function `handleState`. -/
def handleState (J : Json) : handler := fun d =>
  match J.Unmarshal d.Body "StateEvent" with
  | some e => errors.Wrap (some e) "unable to unmarshal data"
  | none => none

/-- The package variable `handlers`; a key that is not in the map gives the nil handler. -/
def handlers (J : Json) : String → Option handler := fun key =>
  if key = "alarm:fanout" then some (handleAlarm J)
  else if key = "state:fanout" then some (handleState J)
  else none

/-- What one iteration of the serve loop did: it died calling a nil handler, or it
made the given calls on the delivery and went on to the next iteration. -/
inductive Served where
  | panicked
  | continued (calls : List Disposition)
deriving DecidableEq, Repr

/-- The handler that the serve loop of `API.Run` calls for a delivery. -/
def API.lookup (hs : String → Option handler) (d : Delivery) : Option handler :=
  hs (d.Exchange ++ ":fanout")

/-- One iteration of the serve loop of `API.Run`, for the delivery taken from
`deliveryBus`, over the handler table `hs` (the package variable `handlers`). The handle
id, the context and the log lines have no effect on the calls made; the results of `Ack`
and `Nack` are dropped by the code. -/
def API.serveStep (hs : String → Option handler) (d : Delivery) : Served :=
  match API.lookup hs d with
  | none => Served.panicked
  | some h =>
    match h d with
    | some _ =>
      if !d.Redelivered then Served.continued [Disposition.Nack false true]
      else Served.continued [Disposition.Ack false]
    | none => Served.continued [Disposition.Ack false]

/-- The serve loop of `API.Run` over the deliveries that arrive on `deliveryBus`: the
calls made for each delivery served, and whether the loop is still alive. -/
def API.serveLoop (hs : String → Option handler) :
    List Delivery → List (Delivery × List Disposition) × Bool
  | [] => ([], true)
  | d :: ds =>
    match API.serveStep hs d with
    | Served.panicked => ([], false)
    | Served.continued calls =>
      ((d, calls) :: (API.serveLoop hs ds).1, (API.serveLoop hs ds).2)

/-- The lookup as the specification words it, by the exchange and type fields of the
delivery. Not taken from the code; it is what `API.lookup` is compared with. -/
def API.lookupByType (hs : String → Option handler) (d : Delivery) : Option handler :=
  hs (d.Exchange ++ ":" ++ d.Kind)

end mq

end mqplay

/-! ## Concrete clients, brokers and deliveries -/

namespace mqplay

namespace publisher

/-- The call that replay makes on channel `ch` for a registered exchange. -/
def replayCall (ch : ChanHandle) (v : Exchange) : DeclareCall :=
  { ch := ch, name := v.Name, kind := v.Etype, durable := false, autoDelete := false,
    internal := false, noWait := false }

/-- A broker that accepts everything: the connection is 1, the channel is 7. -/
def env0 : Env Unit :=
  { Dial := fun w _ => (w, Answer.ok 1)
    Channel := fun w _ => (w, Answer.ok 7)
    ExchangeDeclare := fun w _ _ _ _ _ _ _ => (w, none)
    Publish := fun w _ _ _ _ _ _ => (w, none)
    rangeOrder := fun _ l => l
    rangeOrder_perm := fun _ l => List.Perm.refl l }

/-- A broker that refuses to declare the exchange "alarm" and visits maps backwards. -/
def envRefusing : Env Unit :=
  { Dial := fun w _ => (w, Answer.ok 1)
    Channel := fun w _ => (w, Answer.ok 7)
    ExchangeDeclare := fun w _ name _ _ _ _ _ =>
      (w, if name = "alarm" then some "access refused" else none)
    Publish := fun w _ _ _ _ _ _ => (w, none)
    rangeOrder := fun _ l => l.reverse
    rangeOrder_perm := fun _ l => List.reverse_perm l }

/-- A connected publisher with an open channel and an empty registry. -/
def mq0 : MQ :=
  { amqpURL := "amqp://192.168.99.100:5672", firstRun := false, conn := some 1, ch := some 7,
    atype := Publisher, exchanges := ∅ }

/-- The client `mq0` after `ConnectToExchange("x", "direct")` on the accepting broker. -/
def registered0 : MQ := (mq0.ConnectToExchange env0 () "x" "direct").mq

/-- A connected client with the exchanges "alarm" and "state" registered. -/
def mq2 : MQ :=
  { mq0 with
    exchanges :=
      ((∅ : Registry).insert "alarm" { Name := "alarm", Etype := "fanout" }).insert "state"
        { Name := "state", Etype := "fanout" } }

/-- The client `mq2` after its channel was closed: `watchChannel` has set `s.ch` to nil. -/
def stale2 : MQ := { mq2 with ch := none }

/-- The client `mq2` constructed as a consumer. -/
def consumer2 : MQ := { mq2 with atype := Consumer }

/-- A client as `New` returns it on the accepting broker: connected, no channel yet. -/
def fresh0 : MQ :=
  { amqpURL := "amqp://192.168.99.100:5672", firstRun := true, conn := some 1, ch := none,
    atype := Publisher, exchanges := ∅ }

/-- The running client right after `New` on the accepting broker. -/
def sys0 : System Unit := fresh0.runWatchers ()

end publisher

namespace mq

/-- A decoder that only rejects the empty body. -/
def json0 : Json :=
  { Unmarshal := fun data _ => if data = [] then some "unexpected end of JSON input" else none }

/-- A delivery as the publisher of this repository produces it: exchange "alarm", no
message type, a body that decodes. -/
def alarm0 : Delivery :=
  { Exchange := "alarm", Kind := "", Body := [123, 125], Redelivered := false }

/-- A first delivery on "alarm" whose body does not decode. -/
def alarmBad : Delivery :=
  { Exchange := "alarm", Kind := "", Body := [], Redelivered := false }

/-- The delivery `alarm0` with the message type "topic". -/
def alarmTopic : Delivery :=
  { Exchange := "alarm", Kind := "topic", Body := [123, 125], Redelivered := false }

/-- A delivery published through the default exchange, whose name is empty. -/
def direct0 : Delivery :=
  { Exchange := "", Kind := "", Body := [123, 125], Redelivered := false }

end mq

end mqplay

/-! ## The publisher client -/

namespace mqplay

namespace publisher

/-- C2: on a client whose type is Consumer, Send returns (it does not panic, with or
without a channel) the error "mq client is not for sending" whatever the registry, the
exchange name, the payload and the routing key are; it performs no event at all (so no
Publish call) and changes neither the client nor the broker state. -/
theorem Send_consumer_refused {σ : Type} (E : Env σ) (w : σ) (s : MQ) (name : String)
    (data : List Nat) (routingKey : String) (h : s.atype = Consumer) :
    s.Send E w name data routingKey =
      some { world := w, mq := s, ret := some "mq client is not for sending", events := [] } := by
  simp [MQ.Send, h, errors.New]

/-- The consumer `consumer2` is refused although "alarm" is registered. -/
theorem Send_consumer_refused_witness :
    consumer2.atype = Consumer ∧ "alarm" ∈ consumer2.exchanges ∧
    consumer2.Send env0 () "alarm" [123, 125] "*" =
      some { world := (), mq := consumer2, ret := some "mq client is not for sending",
             events := [] } :=
  ⟨rfl, by decide, Send_consumer_refused env0 () consumer2 "alarm" [123, 125] "*" rfl⟩

/-- C3: on a client that is not consume-only, Send on a name that is not a key of the
registry returns "exchange has not been created", performs no event (no Publish call) and
leaves client, registry and broker state unchanged. On a registered name, when the client
holds a channel, it performs exactly one event, the Publish call on that channel with that
name, the routing key, mandatory=false, immediate=false, content type "application/json"
and the body, and returns the result of that call with the client unchanged. On a
registered name, when the client holds no channel, the call panics: nothing is returned and
no Publish call reaches the broker. -/
theorem Send_registry_gate {σ : Type} (E : Env σ) (w : σ) (s : MQ) (name : String)
    (data : List Nat) (routingKey : String) (h : s.atype ≠ Consumer) :
    (name ∉ s.exchanges →
      s.Send E w name data routingKey =
        some { world := w, mq := s, ret := some "exchange has not been created",
               events := [] }) ∧
    (∀ ch, name ∈ s.exchanges → s.ch = some ch →
      s.Send E w name data routingKey =
        some { world :=
                 (E.Publish w ch name routingKey false false
                   { ContentType := "application/json", Body := data }).1,
               mq := s,
               ret :=
                 (E.Publish w ch name routingKey false false
                   { ContentType := "application/json", Body := data }).2,
               events :=
                 [Event.Publish ch name routingKey false false
                   { ContentType := "application/json", Body := data }
                   (E.Publish w ch name routingKey false false
                     { ContentType := "application/json", Body := data }).2] }) ∧
    (name ∈ s.exchanges → s.ch = none → s.Send E w name data routingKey = none) := by
  refine ⟨?_, ?_, ?_⟩
  · intro hn
    have hl : s.exchanges.lookup name = none := AList.lookup_eq_none.mpr hn
    simp [MQ.Send, h, hl, errors.New]
  · intro ch hm hch
    obtain ⟨v, hv⟩ := Option.isSome_iff_exists.mp (AList.lookup_isSome.mpr hm)
    simp [MQ.Send, h, hv, hch]
  · intro hm hch
    obtain ⟨v, hv⟩ := Option.isSome_iff_exists.mp (AList.lookup_isSome.mpr hm)
    simp [MQ.Send, h, hv, hch]

/-- The publisher `mq2` publishes to the registered "alarm" on channel 7 and refuses the
unregistered "x"; the publisher `stale2`, which has "alarm" registered and no channel,
panics. -/
theorem Send_registry_gate_witness :
    (mq2.atype ≠ Consumer ∧ "alarm" ∈ mq2.exchanges ∧ mq2.ch = some 7 ∧
      mq2.Send env0 () "alarm" [123, 125] "*" =
        some { world := (), mq := mq2, ret := none,
               events :=
                 [Event.Publish 7 "alarm" "*" false false
                   { ContentType := "application/json", Body := [123, 125] } none] }) ∧
    ("x" ∉ mq2.exchanges ∧
      mq2.Send env0 () "x" [123, 125] "*" =
        some { world := (), mq := mq2, ret := some "exchange has not been created",
               events := [] }) ∧
    (stale2.atype ≠ Consumer ∧ "alarm" ∈ stale2.exchanges ∧ stale2.ch = none ∧
      stale2.Send env0 () "alarm" [123, 125] "*" = none) :=
  ⟨⟨by decide, by decide, rfl,
      (Send_registry_gate env0 () mq2 "alarm" [123, 125] "*" (by decide)).2.1 7 (by decide)
        rfl⟩,
    ⟨by decide, (Send_registry_gate env0 () mq2 "x" [123, 125] "*" (by decide)).1 (by decide)⟩,
    ⟨by decide, by decide, rfl,
      (Send_registry_gate env0 () stale2 "alarm" [123, 125] "*" (by decide)).2.2 (by decide)
        rfl⟩⟩

/-- A client reaches the panic by itself: on the accepting broker the channel is opened,
"alarm" is registered, the channel watcher receives a closure and clears `s.ch`; the next
Send to "alarm" finds the name registered and no channel, and takes the process down. -/
theorem Send_after_closure_panics :
    (sys0.after env0
        [Action.watchChannel none, Action.ConnectToExchange "alarm" "fanout",
          Action.watchChannel (some "closed")]).mq.ch = none ∧
    "alarm" ∈ (sys0.after env0
        [Action.watchChannel none, Action.ConnectToExchange "alarm" "fanout",
          Action.watchChannel (some "closed")]).mq.exchanges ∧
    (sys0.after env0
        [Action.watchChannel none, Action.ConnectToExchange "alarm" "fanout",
          Action.watchChannel (some "closed")]).crashed = false ∧
    (sys0.after env0
        [Action.watchChannel none, Action.ConnectToExchange "alarm" "fanout",
          Action.watchChannel (some "closed"), Action.Send "alarm" [123, 125] "*"]).crashed =
      true ∧
    sys0.run env0
        [Action.watchChannel none, Action.ConnectToExchange "alarm" "fanout",
          Action.watchChannel (some "closed"), Action.Send "alarm" [123, 125] "*"] =
      [[Event.Channel 1 (Answer.ok 7), Event.NotifyClose (Handle.conn 1), Event.readyc],
       [Event.ExchangeDeclare 7 "alarm" "fanout" false false false false none],
       [Event.errc (some "closed"), Event.Sleep 10],
       []] := by
  decide

/-- C5: ConnectToExchange without a connection returns "not connected to mq"; with a
connection but without a channel it returns "channel is closed"; in both cases, registered
name or not, it performs no event (no ExchangeDeclare) and changes nothing. With both
handles and an unregistered name it performs exactly one event, the call
ExchangeDeclare(name, type, false, false, false, false) on the held channel, and the
registry holds name afterwards if and only if that call returned no error: then the entry
is the pair of name and type and nil is returned, otherwise the client is unchanged and the
wrapped error is returned. -/
theorem ConnectToExchange_guards {σ : Type} (E : Env σ) (w : σ) (s : MQ)
    (name etype : String) :
    (s.conn = none →
      (s.ConnectToExchange E w name etype).ret = some "not connected to mq" ∧
      (s.ConnectToExchange E w name etype).events = [] ∧
      (s.ConnectToExchange E w name etype).mq = s ∧
      (s.ConnectToExchange E w name etype).world = w) ∧
    (s.conn ≠ none → s.ch = none →
      (s.ConnectToExchange E w name etype).ret = some "channel is closed" ∧
      (s.ConnectToExchange E w name etype).events = [] ∧
      (s.ConnectToExchange E w name etype).mq = s ∧
      (s.ConnectToExchange E w name etype).world = w) ∧
    (∀ ch, s.conn ≠ none → s.ch = some ch → name ∉ s.exchanges →
      (s.ConnectToExchange E w name etype).events =
        [Event.ExchangeDeclare ch name etype false false false false
          (E.ExchangeDeclare w ch name etype false false false false).2] ∧
      (name ∈ (s.ConnectToExchange E w name etype).mq.exchanges ↔
        (E.ExchangeDeclare w ch name etype false false false false).2 = none) ∧
      ((E.ExchangeDeclare w ch name etype false false false false).2 = none →
        (s.ConnectToExchange E w name etype).ret = none ∧
        (s.ConnectToExchange E w name etype).mq =
          { s with exchanges := s.exchanges.insert name { Name := name, Etype := etype } } ∧
        (s.ConnectToExchange E w name etype).mq.exchanges.lookup name =
          some { Name := name, Etype := etype }) ∧
      (∀ e, (E.ExchangeDeclare w ch name etype false false false false).2 = some e →
        (s.ConnectToExchange E w name etype).ret =
          some ("unable to declare exchange: " ++ e) ∧
        (s.ConnectToExchange E w name etype).mq = s)) := by
  refine ⟨?_, ?_, ?_⟩
  · intro hc
    simp [MQ.ConnectToExchange, hc, errors.New]
  · intro hc hch
    obtain ⟨c, hc⟩ := Option.ne_none_iff_exists'.mp hc
    simp [MQ.ConnectToExchange, hc, hch, errors.New]
  · intro ch hc hch hn
    obtain ⟨c, hc⟩ := Option.ne_none_iff_exists'.mp hc
    have hl : s.exchanges.lookup name = none := AList.lookup_eq_none.mpr hn
    cases hr : (E.ExchangeDeclare w ch name etype false false false false).2 with
    | none =>
      simp [MQ.ConnectToExchange, hc, hch, hl, hr, AList.lookup_insert]
    | some e =>
      simp [MQ.ConnectToExchange, hc, hch, hl, hr, errors.Wrap, hn]

/-- On the broker that refuses "alarm", the connected client `mq0` gets the wrapped error
and keeps its registry; the client `fresh0`, which has no channel yet, is turned away
before any call. -/
theorem ConnectToExchange_guards_witness :
    (mq0.conn ≠ none ∧ mq0.ch = some 7 ∧ "alarm" ∉ mq0.exchanges ∧
      (envRefusing.ExchangeDeclare () 7 "alarm" "fanout" false false false false).2 =
        some "access refused" ∧
      (mq0.ConnectToExchange envRefusing () "alarm" "fanout").ret =
        some ("unable to declare exchange: " ++ "access refused") ∧
      (mq0.ConnectToExchange envRefusing () "alarm" "fanout").mq = mq0) ∧
    (fresh0.conn ≠ none ∧ fresh0.ch = none ∧
      (fresh0.ConnectToExchange envRefusing () "alarm" "fanout").ret =
        some "channel is closed") :=
  ⟨⟨by decide, rfl, by decide, rfl,
      ((ConnectToExchange_guards envRefusing () mq0 "alarm" "fanout").2.2 7 (by decide) rfl
        (by decide)).2.2.2 "access refused" rfl⟩,
    ⟨by decide, rfl,
      ((ConnectToExchange_guards envRefusing () fresh0 "alarm" "fanout").2.1 (by decide)
        rfl).1⟩⟩

/-- With both handles present, ConnectToExchange on a registered name does nothing. -/
theorem ConnectToExchange_no_op_of_mem {σ : Type} (E : Env σ) (w : σ) (s : MQ)
    (name etype : String) (c : ConnHandle) (ch : ChanHandle) (v : Exchange)
    (hc : s.conn = some c) (hch : s.ch = some ch) (hv : s.exchanges.lookup name = some v) :
    s.ConnectToExchange E w name etype = { world := w, mq := s, ret := none, events := [] } := by
  simp [MQ.ConnectToExchange, hc, hch, hv]

/-- C4, counterexample: the client `registered0` is connected, has an open channel and holds
the entry ("x", "direct"). ConnectToExchange("x", "fanout") succeeds on it, and after a
second ConnectToExchange("x", "fanout") the entry for "x" is still ("x", "direct"), not
("x", "fanout"), and no declare call for "x" was made by the two calls. -/
theorem ConnectToExchange_keeps_earlier_entry :
    registered0.conn = some 1 ∧ registered0.ch = some 7 ∧
    (registered0.ConnectToExchange env0 () "x" "fanout").ret = none ∧
    ((registered0.ConnectToExchange env0 () "x" "fanout").mq.ConnectToExchange env0 ()
        "x" "fanout").mq.exchanges.lookup "x" = some { Name := "x", Etype := "direct" } ∧
    ((registered0.ConnectToExchange env0 () "x" "fanout").mq.ConnectToExchange env0 ()
        "x" "fanout").mq.exchanges.lookup "x" ≠ some { Name := "x", Etype := "fanout" } ∧
    ((registered0.ConnectToExchange env0 () "x" "fanout").events ++
      ((registered0.ConnectToExchange env0 () "x" "fanout").mq.ConnectToExchange env0 ()
        "x" "fanout").events).filterMap Event.declared = [] := by
  decide

/-- C4, amended: if ConnectToExchange(name, t1) returned no error on a client with a
connection and a channel, then a following ConnectToExchange(name, t2) returns no error,
performs no event (no ExchangeDeclare), and leaves client and broker state unchanged; the
registry holds exactly one entry for name. If name was not registered before the first
call, that entry is the pair of name and t1 and the two calls together made exactly one
declare call, for name with type t1; if name was registered before, its earlier entry is
kept and the two calls performed no event. -/
theorem ConnectToExchange_idempotent {σ : Type} (E : Env σ) (w : σ) (s : MQ)
    (name t1 t2 : String) (c : ConnHandle) (ch : ChanHandle)
    (hc : s.conn = some c) (hch : s.ch = some ch)
    (h1 : (s.ConnectToExchange E w name t1).ret = none) :
    ((s.ConnectToExchange E w name t1).mq.ConnectToExchange E
        (s.ConnectToExchange E w name t1).world name t2).ret = none ∧
    ((s.ConnectToExchange E w name t1).mq.ConnectToExchange E
        (s.ConnectToExchange E w name t1).world name t2).events = [] ∧
    ((s.ConnectToExchange E w name t1).mq.ConnectToExchange E
        (s.ConnectToExchange E w name t1).world name t2).mq =
      (s.ConnectToExchange E w name t1).mq ∧
    ((s.ConnectToExchange E w name t1).mq.ConnectToExchange E
        (s.ConnectToExchange E w name t1).world name t2).world =
      (s.ConnectToExchange E w name t1).world ∧
    (s.ConnectToExchange E w name t1).mq.exchanges.keys.count name = 1 ∧
    (name ∉ s.exchanges →
      (s.ConnectToExchange E w name t1).mq.exchanges.lookup name =
        some { Name := name, Etype := t1 } ∧
      ((s.ConnectToExchange E w name t1).events ++
        ((s.ConnectToExchange E w name t1).mq.ConnectToExchange E
          (s.ConnectToExchange E w name t1).world name t2).events).filterMap Event.declared =
        [{ ch := ch, name := name, kind := t1, durable := false, autoDelete := false,
           internal := false, noWait := false }]) ∧
    (∀ v, s.exchanges.lookup name = some v →
      (s.ConnectToExchange E w name t1).mq.exchanges.lookup name = some v ∧
      (s.ConnectToExchange E w name t1).events ++
        ((s.ConnectToExchange E w name t1).mq.ConnectToExchange E
          (s.ConnectToExchange E w name t1).world name t2).events = []) := by
  cases hl : s.exchanges.lookup name with
  | some v =>
    have hmem : name ∈ s.exchanges :=
      AList.lookup_isSome.mp (by simp [hl])
    have e1 := ConnectToExchange_no_op_of_mem E w s name t1 c ch v hc hch hl
    have e2 := ConnectToExchange_no_op_of_mem E w s name t2 c ch v hc hch hl
    rw [e1]
    simp only [e2]
    refine ⟨trivial, trivial, trivial, trivial, ?_, ?_, ?_⟩
    · exact List.count_eq_one_of_mem s.exchanges.keys_nodup (AList.mem_keys.mp hmem)
    · intro hn; exact absurd hmem hn
    · intro v' hv'; exact ⟨hv'.symm ▸ hl ▸ rfl, rfl⟩
  | none =>
    have hn : name ∉ s.exchanges := AList.lookup_eq_none.mp hl
    cases hr : (E.ExchangeDeclare w ch name t1 false false false false).2 with
    | some e =>
      simp [MQ.ConnectToExchange, hc, hch, hl, hr, errors.Wrap] at h1
    | none =>
      have e1 : s.ConnectToExchange E w name t1 =
          { world := (E.ExchangeDeclare w ch name t1 false false false false).1,
            mq := { s with exchanges :=
              s.exchanges.insert name { Name := name, Etype := t1 } },
            ret := none,
            events := [Event.ExchangeDeclare ch name t1 false false false false none] } := by
        simp [MQ.ConnectToExchange, hc, hch, hl, hr]
      have hl2 : (s.exchanges.insert name { Name := name, Etype := t1 }).lookup name =
          some { Name := name, Etype := t1 } := AList.lookup_insert _
      have e2 := ConnectToExchange_no_op_of_mem E
        (E.ExchangeDeclare w ch name t1 false false false false).1
        { s with exchanges := s.exchanges.insert name { Name := name, Etype := t1 } }
        name t2 c ch _ hc hch hl2
      rw [e1]
      simp only [e2]
      refine ⟨trivial, trivial, trivial, trivial, ?_, ?_, ?_⟩
      · apply List.count_eq_one_of_mem (AList.keys_nodup _)
        exact AList.mem_keys.mp ((AList.mem_insert _).mpr (Or.inl rfl))
      · intro _; exact ⟨hl2, by simp [Event.declared]⟩
      · intro v hv; simp at hv

/-- Two calls for "x" on the connected client `mq0` with an empty registry: one declare
call, and the entry keeps the first type. -/
theorem ConnectToExchange_idempotent_witness :
    mq0.conn = some 1 ∧ mq0.ch = some 7 ∧
    (mq0.ConnectToExchange env0 () "x" "fanout").ret = none ∧ "x" ∉ mq0.exchanges ∧
    ((mq0.ConnectToExchange env0 () "x" "fanout").mq.exchanges.lookup "x" =
        some { Name := "x", Etype := "fanout" } ∧
      ((mq0.ConnectToExchange env0 () "x" "fanout").events ++
        ((mq0.ConnectToExchange env0 () "x" "fanout").mq.ConnectToExchange env0
          (mq0.ConnectToExchange env0 () "x" "fanout").world "x" "topic").events).filterMap
          Event.declared =
        [{ ch := 7, name := "x", kind := "fanout", durable := false, autoDelete := false,
           internal := false, noWait := false }]) :=
  ⟨rfl, rfl, rfl, by decide,
    (ConnectToExchange_idempotent env0 () mq0 "x" "fanout" "topic" 1 7 rfl rfl rfl).2.2.2.2.2.1
      (by decide)⟩

/-- The replay loop declares every exchange it is given, in order. -/
theorem reinitLoop_declared {σ : Type} (E : Env σ) (ch : ChanHandle) (vs : List Exchange)
    (w : σ) : (reinitLoop E ch vs w).2.filterMap Event.declared = vs.map (replayCall ch) := by
  induction vs generalizing w with
  | nil => simp [reinitLoop]
  | cons v vs ih =>
    cases hr : (E.ExchangeDeclare w ch v.Name v.Etype false false false false).2 with
    | none => simp [reinitLoop, hr, Event.declared, replayCall, ih]
    | some e => simp [reinitLoop, hr, Event.declared, replayCall, ih]

/-- The replay loop sends on `errc` exactly the errors of its failed declares, in order. -/
theorem reinitLoop_reported {σ : Type} (E : Env σ) (ch : ChanHandle) (vs : List Exchange)
    (w : σ) :
    (reinitLoop E ch vs w).2.filterMap Event.reported =
      (reinitLoop E ch vs w).2.filterMap Event.declareFailure := by
  induction vs generalizing w with
  | nil => simp [reinitLoop]
  | cons v vs ih =>
    cases hr : (E.ExchangeDeclare w ch v.Name v.Etype false false false false).2 with
    | none => simp [reinitLoop, hr, Event.reported, Event.declareFailure, ih]
    | some e => simp [reinitLoop, hr, Event.reported, Event.declareFailure, ih]

/-- The replay loop performs nothing but declare calls and sends on `errc`. -/
theorem reinitLoop_only {σ : Type} (E : Env σ) (ch : ChanHandle) (vs : List Exchange)
    (w : σ) :
    ∀ e ∈ (reinitLoop E ch vs w).2, e.declared.isSome = true ∨ e.reported.isSome = true := by
  induction vs generalizing w with
  | nil => simp [reinitLoop]
  | cons v vs ih =>
    cases hr : (E.ExchangeDeclare w ch v.Name v.Etype false false false false).2 with
    | none =>
      intro e he
      simp only [reinitLoop, hr, List.mem_cons] at he
      rcases he with rfl | he
      · left; rfl
      · exact ih _ e he
    | some x =>
      intro e he
      simp only [reinitLoop, hr, List.mem_cons] at he
      rcases he with rfl | rfl | he
      · left; rfl
      · right; rfl
      · exact ih _ e he

/-- C6: on a client holding a channel, for every registry, every broker (every pattern of
declare results) and every visiting order, reinitExchanges makes its ExchangeDeclare
calls for the registered exchanges in visiting order, each with the name and type of the
exchange and all four flags false; these calls are a permutation of the registry entries
(one call per registered exchange, also after failures); the errors sent on errc are
exactly the errors of the failed declares, one each and in the same order; nothing else is
performed; the client, and with it the registry, is unchanged; and the calls made under
any other broker and visiting order are a permutation of these. -/
theorem reinitExchanges_complete {σ : Type} (E : Env σ) (w : σ) (s : MQ) (ch : ChanHandle)
    (h : s.ch = some ch) :
    (s.reinitExchanges E w).events.filterMap Event.declared =
      (E.rangeOrder w s.exchanges.entries).map (fun x => replayCall ch x.2) ∧
    ((s.reinitExchanges E w).events.filterMap Event.declared).Perm
      (s.exchanges.entries.map fun x => replayCall ch x.2) ∧
    (s.reinitExchanges E w).events.filterMap Event.reported =
      (s.reinitExchanges E w).events.filterMap Event.declareFailure ∧
    (∀ e ∈ (s.reinitExchanges E w).events,
      e.declared.isSome = true ∨ e.reported.isSome = true) ∧
    (s.reinitExchanges E w).mq = s ∧
    (∀ (τ : Type) (E2 : Env τ) (w2 : τ),
      ((s.reinitExchanges E2 w2).events.filterMap Event.declared).Perm
        ((s.reinitExchanges E w).events.filterMap Event.declared)) := by
  have key : ∀ (τ : Type) (E2 : Env τ) (w2 : τ),
      (s.reinitExchanges E2 w2).events.filterMap Event.declared =
        (E2.rangeOrder w2 s.exchanges.entries).map (fun x => replayCall ch x.2) := by
    intro τ E2 w2
    simp [MQ.reinitExchanges, h, reinitLoop_declared, Function.comp_def]
  have perm : ∀ (τ : Type) (E2 : Env τ) (w2 : τ),
      ((s.reinitExchanges E2 w2).events.filterMap Event.declared).Perm
        (s.exchanges.entries.map fun x => replayCall ch x.2) := by
    intro τ E2 w2
    rw [key]
    exact (E2.rangeOrder_perm w2 _).map _
  refine ⟨key σ E w, perm σ E w, ?_, ?_, ?_, ?_⟩
  · simp only [MQ.reinitExchanges, h]
    exact reinitLoop_reported E ch _ w
  · simp only [MQ.reinitExchanges, h]
    exact reinitLoop_only E ch _ w
  · simp [MQ.reinitExchanges, h]
  · intro τ E2 w2
    exact (perm τ E2 w2).trans (perm σ E w).symm

/-- Replay of "alarm" and "state" on the broker that refuses "alarm": both are declared,
the one failure is reported. -/
theorem reinitExchanges_complete_witness :
    mq2.ch = some 7 ∧
    ((mq2.reinitExchanges envRefusing ()).events.filterMap Event.declared).Perm
      (mq2.exchanges.entries.map fun x => replayCall 7 x.2) ∧
    (mq2.reinitExchanges envRefusing ()).events.filterMap Event.reported =
      (mq2.reinitExchanges envRefusing ()).events.filterMap Event.declareFailure :=
  ⟨rfl, (reinitExchanges_complete envRefusing () mq2 7 rfl).2.1,
    (reinitExchanges_complete envRefusing () mq2 7 rfl).2.2.1⟩

/-- The events of that replay, in full. -/
theorem reinitExchanges_refusing_events :
    (mq2.reinitExchanges envRefusing ()).events =
      [Event.ExchangeDeclare 7 "alarm" "fanout" false false false false (some "access refused"),
       Event.errc (some "access refused"),
       Event.ExchangeDeclare 7 "state" "fanout" false false false false none] := by
  decide

/-- Replay neither signals readiness nor opens a channel, and returns the client as it was. -/
theorem reinitExchanges_quiet {σ : Type} (E : Env σ) (w : σ) (s : MQ) :
    (s.reinitExchanges E w).events.count Event.readyc = 0 ∧
    opensChannel (s.reinitExchanges E w).events = false ∧
    (s.reinitExchanges E w).mq = s := by
  cases hch : s.ch with
  | none => simp [MQ.reinitExchanges, hch, opensChannel]
  | some ch =>
    have only := reinitLoop_only E ch
      ((E.rangeOrder w s.exchanges.entries).map Sigma.snd) w
    simp only [MQ.reinitExchanges, hch]
    refine ⟨?_, ?_, trivial⟩
    · rw [List.count_eq_zero]
      intro hmem
      have := only _ hmem
      simp [Event.declared, Event.reported] at this
    · simp only [opensChannel, List.any_eq_false]
      intro e he
      rcases only e he with hd | hr
      · cases e <;> simp [Event.declared] at hd ⊢
      · cases e <;> simp [Event.reported] at hr ⊢

/-- A step signals readiness once if it opens a channel while `firstRun` holds and not at
all otherwise, and `firstRun` stays as it was unless the step opens a channel, which
clears it. -/
theorem step_readyc {σ : Type} (E : Env σ) (a : Action) (t : System σ) :
    (t.step E a).2.count Event.readyc =
      (if opensChannel (t.step E a).2 && t.mq.firstRun then 1 else 0) ∧
    (t.step E a).1.mq.firstRun = (t.mq.firstRun && !opensChannel (t.step E a).2) := by
  obtain ⟨w, ⟨url, fr, conn, ch, atype, ex⟩, ⟨cpc, cregs⟩, ⟨hpc, hregs⟩, crashed⟩ := t
  cases crashed with
  | true => simp [System.step, opensChannel]
  | false =>
  cases a with
  | watchConnection recv =>
    cases cpc with
    | waiting => simp [System.step, System.watchConnection, opensChannel]
    | top =>
      cases conn with
      | some c => simp [System.step, System.watchConnection, opensChannel]
      | none =>
        rcases hd : E.Dial w url with ⟨w1, _ | e⟩ <;>
          simp [System.step, System.watchConnection, opensChannel, hd]
  | watchChannel recv =>
    cases hpc with
    | waiting => simp [System.step, System.watchChannel, opensChannel]
    | top =>
      cases conn with
      | none => simp [System.step, System.watchChannel, opensChannel]
      | some c =>
        cases ch with
        | some h => simp [System.step, System.watchChannel, opensChannel]
        | none =>
          rcases hd : E.Channel w c with ⟨w1, h | e⟩
          · obtain ⟨q1, -, q3⟩ := reinitExchanges_quiet E w1
              { amqpURL := url, firstRun := fr, conn := some c, ch := some h,
                atype := atype, exchanges := ex }
            cases fr with
            | true =>
              simp [System.step, System.watchChannel, opensChannel, hd, q3, q1,
                List.count_cons]
            | false =>
              simp [System.step, System.watchChannel, opensChannel, hd, q3, q1,
                List.count_cons]
          · simp [System.step, System.watchChannel, opensChannel, hd]
  | ConnectToExchange name etype =>
    cases conn with
    | none => simp [System.step, MQ.ConnectToExchange, opensChannel]
    | some c =>
      cases ch with
      | none => simp [System.step, MQ.ConnectToExchange, opensChannel]
      | some ch =>
        cases hl : ex.lookup name with
        | some v => simp [System.step, MQ.ConnectToExchange, opensChannel, hl]
        | none =>
          cases hr : (E.ExchangeDeclare w ch name etype false false false false).2 <;>
            simp [System.step, MQ.ConnectToExchange, opensChannel, hl, hr]
  | Send name data routingKey =>
    by_cases ha : atype = Consumer
    · simp [System.step, MQ.Send, opensChannel, ha]
    · cases hl : ex.lookup name with
      | none => simp [System.step, MQ.Send, opensChannel, ha, hl]
      | some v => cases ch <;> simp [System.step, MQ.Send, opensChannel, ha, hl]

/-- A step that opens a channel is the open branch of `watchChannel`: it registers the
closure notification on the connection, replays the registry and signals readiness when
`firstRun` holds. -/
theorem step_opens_events {σ : Type} (E : Env σ) (a : Action) (t : System σ)
    (h : opensChannel (t.step E a).2 = true) :
    ∃ c ch w1, t.mq.conn = some c ∧ (t.step E a).1.mq.ch = some ch ∧
      (t.step E a).1.chanWatcher =
        { pc := Pc.waiting, registered := Handle.conn c :: t.chanWatcher.registered } ∧
      (t.step E a).2 =
        [Event.Channel c (Answer.ok ch), Event.NotifyClose (Handle.conn c)] ++
          (MQ.reinitExchanges E w1 { t.mq with ch := some ch }).events ++
          (if t.mq.firstRun then [Event.readyc] else []) := by
  obtain ⟨w, ⟨url, fr, conn, ch, atype, ex⟩, ⟨cpc, cregs⟩, ⟨hpc, hregs⟩, crashed⟩ := t
  cases crashed with
  | true => simp [System.step, opensChannel] at h
  | false =>
  cases a with
  | watchConnection recv =>
    exfalso
    revert h
    cases cpc with
    | waiting => simp [System.step, System.watchConnection, opensChannel]
    | top =>
      cases conn with
      | some c => simp [System.step, System.watchConnection, opensChannel]
      | none =>
        rcases hd : E.Dial w url with ⟨w1, _ | e⟩ <;>
          simp [System.step, System.watchConnection, opensChannel, hd]
  | watchChannel recv =>
    revert h
    cases hpc with
    | waiting => simp [System.step, System.watchChannel, opensChannel]
    | top =>
      cases conn with
      | none => simp [System.step, System.watchChannel, opensChannel]
      | some c =>
        cases ch with
        | some h => simp [System.step, System.watchChannel, opensChannel]
        | none =>
          rcases hd : E.Channel w c with ⟨w1, h | e⟩
          · intro _
            obtain ⟨-, -, q3⟩ := reinitExchanges_quiet E w1
              { amqpURL := url, firstRun := fr, conn := some c, ch := some h,
                atype := atype, exchanges := ex }
            refine ⟨c, h, w1, rfl, ?_, ?_, ?_⟩
            · cases fr <;> simp [System.step, System.watchChannel, hd, q3]
            · cases fr <;> simp [System.step, System.watchChannel, hd, q3]
            · cases fr <;> simp [System.step, System.watchChannel, hd, q3]
          · simp [System.step, System.watchChannel, opensChannel, hd]
  | ConnectToExchange name etype =>
    exfalso
    revert h
    cases conn with
    | none => simp [System.step, MQ.ConnectToExchange, opensChannel]
    | some c =>
      cases ch with
      | none => simp [System.step, MQ.ConnectToExchange, opensChannel]
      | some ch =>
        cases hl : ex.lookup name with
        | some v => simp [System.step, MQ.ConnectToExchange, opensChannel, hl]
        | none =>
          cases hr : (E.ExchangeDeclare w ch name etype false false false false).2 <;>
            simp [System.step, MQ.ConnectToExchange, opensChannel, hl, hr]
  | Send name data routingKey =>
    exfalso
    revert h
    by_cases ha : atype = Consumer
    · simp [System.step, MQ.Send, opensChannel, ha]
    · cases hl : ex.lookup name with
      | none => simp [System.step, MQ.Send, opensChannel, ha, hl]
      | some v => cases ch <;> simp [System.step, MQ.Send, opensChannel, ha, hl]

/-- When the channel watcher is at the head of its loop of a running client that holds a
connection and no channel, and the broker accepts the channel open, the step opens the
channel, registers for closure notification, replays the registry, signals readiness when
`firstRun` holds, and leaves `firstRun` false and the new channel held. -/
theorem watchChannel_open_step {σ : Type} (E : Env σ) (recv : GoError) (t : System σ)
    (c : ConnHandle) (ch : ChanHandle) (hcr : t.crashed = false)
    (hpc : t.chanWatcher.pc = Pc.top) (hconn : t.mq.conn = some c) (hch : t.mq.ch = none)
    (hd : (E.Channel t.world c).2 = Answer.ok ch) :
    (t.step E (Action.watchChannel recv)).2 =
      [Event.Channel c (Answer.ok ch), Event.NotifyClose (Handle.conn c)] ++
        (MQ.reinitExchanges E (E.Channel t.world c).1 { t.mq with ch := some ch }).events ++
        (if t.mq.firstRun then [Event.readyc] else []) ∧
    opensChannel (t.step E (Action.watchChannel recv)).2 = true ∧
    (t.step E (Action.watchChannel recv)).1.mq.ch = some ch ∧
    (t.step E (Action.watchChannel recv)).1.mq.firstRun = false := by
  obtain ⟨w, ⟨url, fr, conn, ch0, atype, ex⟩, ⟨cpc, cregs⟩, ⟨hpc0, hregs⟩, crashed⟩ := t
  simp only at hcr hpc hconn hch hd
  subst hcr hpc hconn hch
  rcases hd2 : E.Channel w c with ⟨w1, h | e⟩
  · rw [hd2] at hd
    cases hd
    obtain ⟨-, -, q3⟩ := reinitExchanges_quiet E w1
      { amqpURL := url, firstRun := fr, conn := some c, ch := some ch,
        atype := atype, exchanges := ex }
    cases fr <;> simp [System.step, System.watchChannel, hd2, q3, opensChannel]
  · rw [hd2] at hd
    cases hd

/-- The case analysis behind the count of readiness signals in a run. -/
theorem single_fire_count (first now later : Bool) :
    ((if (now && first) = true then 1 else 0) +
        if (first && !now && later) = true then 1 else 0) =
      if (first && (now || later)) = true then 1 else 0 := by
  cases first <;> cases now <;> cases later <;> rfl

/-- After a run `firstRun` holds iff it held before and no step opened a channel. -/
theorem after_firstRun {σ : Type} (E : Env σ) (t : System σ) (acts : List Action) :
    (t.after E acts).mq.firstRun =
      (t.mq.firstRun && (t.run E acts).all fun evs => !opensChannel evs) := by
  induction acts generalizing t with
  | nil => simp [System.after, System.run]
  | cons a as ih =>
    simp only [System.after, System.run, List.all_cons, ih, (step_readyc E a t).2]
    simp [Bool.and_assoc]

/-- A run signals readiness once if `firstRun` held and some step opened a channel, and
not at all otherwise. -/
theorem run_count_readyc {σ : Type} (E : Env σ) (t : System σ) (acts : List Action) :
    (t.run E acts).flatten.count Event.readyc =
      (if t.mq.firstRun && (t.run E acts).any opensChannel then 1 else 0) := by
  induction acts generalizing t with
  | nil => simp [System.run]
  | cons a as ih =>
    simp only [System.run, List.flatten_cons, List.count_append, ih, List.any_cons,
      (step_readyc E a t).1, (step_readyc E a t).2]
    exact single_fire_count _ _ _

/-- A step that signals readiness opens a channel. -/
theorem step_readyc_opens {σ : Type} (E : Env σ) (a : Action) (t : System σ)
    (h : Event.readyc ∈ (t.step E a).2) : opensChannel (t.step E a).2 = true := by
  rw [← List.count_pos_iff, (step_readyc E a t).1] at h
  cases hb : opensChannel (t.step E a).2 with
  | true => rfl
  | false => simp [hb] at h

/-- In a run, a step that signals readiness opens a channel. -/
theorem run_readyc_opens {σ : Type} (E : Env σ) (t : System σ) (acts : List Action) :
    ∀ evs ∈ t.run E acts, Event.readyc ∈ evs → opensChannel evs = true := by
  induction acts generalizing t with
  | nil => simp [System.run]
  | cons a as ih =>
    intro evs hmem hready
    simp only [System.run, List.mem_cons] at hmem
    rcases hmem with rfl | hmem
    · exact step_readyc_opens E a t hready
    · exact ih _ evs hmem hready

/-- Running two sequences of steps one after the other. -/
theorem after_append {σ : Type} (E : Env σ) (t : System σ) (pre post : List Action) :
    t.after E (pre ++ post) = (t.after E pre).after E post := by
  induction pre generalizing t with
  | nil => rfl
  | cons a as ih => simp [System.after, ih]

/-- C7: take any run of the client from a state in which firstRun holds (as New sets it),
under any broker and any schedule of watcher steps and method calls. A step emits the
readiness signal if and only if it performs a successful channel open and no earlier step
of the run did; a whole run emits the signal at most once; once a step has emitted it,
firstRun is false after every continuation of the run; and a successful channel open that
comes after an earlier one performs exactly the open, the registration for closure
notification and the registry replay, with no readiness signal. Whenever the channel
watcher is at the head of its loop, the client holds a connection and no channel and the
broker accepts the channel open, the step is a successful channel open that performs the
open, the registration and the registry replay, followed by the readiness signal when no
earlier step was a successful open and by nothing when one was; after it the new channel
is held and firstRun is false. -/
theorem readiness_single_fire {σ : Type} (E : Env σ) (t : System σ)
    (h : t.mq.firstRun = true) (pre : List Action) (a : Action) :
    (Event.readyc ∈ ((t.after E pre).step E a).2 ↔
      opensChannel ((t.after E pre).step E a).2 = true ∧
        ∀ evs ∈ t.run E pre, opensChannel evs = false) ∧
    (∀ acts, (t.run E acts).flatten.count Event.readyc ≤ 1) ∧
    ((∃ evs ∈ t.run E pre, Event.readyc ∈ evs) →
      ∀ post, (t.after E (pre ++ post)).mq.firstRun = false) ∧
    (opensChannel ((t.after E pre).step E a).2 = true →
      (∃ evs ∈ t.run E pre, opensChannel evs = true) →
      ∃ c ch w1, (t.after E pre).mq.conn = some c ∧
        ((t.after E pre).step E a).2 =
          [Event.Channel c (Answer.ok ch), Event.NotifyClose (Handle.conn c)] ++
            (MQ.reinitExchanges E w1 { (t.after E pre).mq with ch := some ch }).events) ∧
    (∀ recv c ch, (t.after E pre).crashed = false →
      (t.after E pre).chanWatcher.pc = Pc.top →
      (t.after E pre).mq.conn = some c → (t.after E pre).mq.ch = none →
      (E.Channel (t.after E pre).world c).2 = Answer.ok ch →
      opensChannel ((t.after E pre).step E (Action.watchChannel recv)).2 = true ∧
      ((∀ evs ∈ t.run E pre, opensChannel evs = false) →
        ((t.after E pre).step E (Action.watchChannel recv)).2 =
          [Event.Channel c (Answer.ok ch), Event.NotifyClose (Handle.conn c)] ++
            (MQ.reinitExchanges E (E.Channel (t.after E pre).world c).1
              { (t.after E pre).mq with ch := some ch }).events ++ [Event.readyc]) ∧
      ((∃ evs ∈ t.run E pre, opensChannel evs = true) →
        ((t.after E pre).step E (Action.watchChannel recv)).2 =
          [Event.Channel c (Answer.ok ch), Event.NotifyClose (Handle.conn c)] ++
            (MQ.reinitExchanges E (E.Channel (t.after E pre).world c).1
              { (t.after E pre).mq with ch := some ch }).events) ∧
      ((t.after E pre).step E (Action.watchChannel recv)).1.mq.ch = some ch ∧
      ((t.after E pre).step E (Action.watchChannel recv)).1.mq.firstRun = false) := by
  have hfr := after_firstRun E t pre
  rw [h, Bool.true_and] at hfr
  have hstep := step_readyc E a (t.after E pre)
  have hall : ((t.run E pre).all fun evs => !opensChannel evs) = true ↔
      ∀ evs ∈ t.run E pre, opensChannel evs = false := by
    simp [List.all_eq_true]
  refine ⟨?_, ?_, ?_, ?_, ?_⟩
  · rw [← List.count_pos_iff, hstep.1, hfr, ← hall]
    cases opensChannel ((t.after E pre).step E a).2 <;>
      cases ((t.run E pre).all fun evs => !opensChannel evs) <;> simp
  · intro acts
    rw [run_count_readyc]
    split <;> simp
  · rintro ⟨evs, hmem, hready⟩ post
    rw [after_append, after_firstRun, hfr]
    have hopen : opensChannel evs = true := run_readyc_opens E t pre evs hmem hready
    have : ((t.run E pre).all fun evs => !opensChannel evs) = false := by
      rw [List.all_eq_false]
      exact ⟨evs, hmem, by simp [hopen]⟩
    simp [this]
  · intro hopen ⟨evs, hmem, hev⟩
    obtain ⟨c, ch, w1, hc, -, -, hevs⟩ := step_opens_events E a (t.after E pre) hopen
    have : (t.after E pre).mq.firstRun = false := by
      rw [hfr, List.all_eq_false]
      exact ⟨evs, hmem, by simp [hev]⟩
    refine ⟨c, ch, w1, hc, ?_⟩
    rw [hevs, this]
    simp
  · intro recv c ch hcr hpc hconn hch hd
    obtain ⟨hevs, hopen, hheld, hfalse⟩ :=
      watchChannel_open_step E recv (t.after E pre) c ch hcr hpc hconn hch hd
    refine ⟨hopen, ?_, ?_, hheld, hfalse⟩
    · intro hnone
      have : (t.after E pre).mq.firstRun = true := by
        rw [hfr]; exact hall.mpr hnone
      rw [hevs, this]
      simp
    · rintro ⟨evs, hmem, hev⟩
      have : (t.after E pre).mq.firstRun = false := by
        rw [hfr, List.all_eq_false]
        exact ⟨evs, hmem, by simp [hev]⟩
      rw [hevs, this]
      simp

/-- The run of `sys0` on the accepting broker: open, close, open again. The broker accepts
the first open, no step came before it, and the step ends with the readiness signal; the
second open comes after the first and performs open, registration and replay only. -/
theorem readiness_single_fire_witness :
    sys0.mq.firstRun = true ∧
    ((sys0.after env0 []).crashed = false ∧ (sys0.after env0 []).chanWatcher.pc = Pc.top ∧
      (sys0.after env0 []).mq.conn = some 1 ∧ (sys0.after env0 []).mq.ch = none ∧
      (env0.Channel (sys0.after env0 []).world 1).2 = Answer.ok 7 ∧
      (∀ evs ∈ sys0.run env0 [], opensChannel evs = false) ∧
      ((sys0.after env0 []).step env0 (Action.watchChannel none)).2 =
        [Event.Channel 1 (Answer.ok 7), Event.NotifyClose (Handle.conn 1)] ++
          (MQ.reinitExchanges env0 (env0.Channel (sys0.after env0 []).world 1).1
            { (sys0.after env0 []).mq with ch := some 7 }).events ++ [Event.readyc] ∧
      Event.readyc ∈ ((sys0.after env0 []).step env0 (Action.watchChannel none)).2) ∧
    ((∃ evs ∈ sys0.run env0 [Action.watchChannel none, Action.watchChannel (some "closed")],
        opensChannel evs = true) ∧
      ((sys0.after env0 [Action.watchChannel none, Action.watchChannel (some "closed")]).step
          env0 (Action.watchChannel none)).2 =
        [Event.Channel 1 (Answer.ok 7), Event.NotifyClose (Handle.conn 1)] ++
          (MQ.reinitExchanges env0
            (env0.Channel
              (sys0.after env0
                [Action.watchChannel none, Action.watchChannel (some "closed")]).world 1).1
            { (sys0.after env0
                [Action.watchChannel none, Action.watchChannel (some "closed")]).mq with
              ch := some 7 }).events) :=
  ⟨rfl,
    ⟨rfl, rfl, rfl, rfl, rfl, by decide,
      ((readiness_single_fire env0 sys0 rfl [] (Action.watchChannel none)).2.2.2.2 none 1 7
        rfl rfl rfl rfl rfl).2.1 (by decide),
      (readiness_single_fire env0 sys0 rfl [] (Action.watchChannel none)).1.mpr
        ⟨((readiness_single_fire env0 sys0 rfl [] (Action.watchChannel none)).2.2.2.2 none 1 7
            rfl rfl rfl rfl rfl).1, by decide⟩⟩,
    ⟨by decide,
      ((readiness_single_fire env0 sys0 rfl
          [Action.watchChannel none, Action.watchChannel (some "closed")]
          (Action.watchChannel none)).2.2.2.2 none 1 7 rfl rfl rfl rfl rfl).2.2.1
        (by decide)⟩⟩

/-- The events of that run, step by step. -/
theorem readiness_run_events :
    sys0.run env0
        [Action.watchChannel none, Action.watchChannel (some "closed"),
          Action.watchChannel none] =
      [[Event.Channel 1 (Answer.ok 7), Event.NotifyClose (Handle.conn 1), Event.readyc],
       [Event.errc (some "closed"), Event.Sleep 10],
       [Event.Channel 1 (Answer.ok 7), Event.NotifyClose (Handle.conn 1)]] := by
  decide

/-- Replay performs nothing but declare calls and sends on `errc`. -/
theorem reinitExchanges_only {σ : Type} (E : Env σ) (w : σ) (s : MQ) :
    ∀ e ∈ (s.reinitExchanges E w).events,
      e.declared.isSome = true ∨ e.reported.isSome = true := by
  cases hch : s.ch with
  | none => simp [MQ.reinitExchanges, hch]
  | some ch =>
    simp only [MQ.reinitExchanges, hch]
    exact reinitLoop_only E ch _ w

/-- C9: in every state and under every broker, a step that performs a successful channel
open registers the closure notification of watchChannel on the connection handle from
which the channel was opened: the step contains NotifyClose on that connection, contains
no NotifyClose on any channel handle, and the watcher then blocks on a stream whose
registrations are that connection and the earlier ones, while the client holds the new
channel. -/
theorem watchChannel_registers_on_connection {σ : Type} (E : Env σ) (a : Action)
    (t : System σ) (h : opensChannel (t.step E a).2 = true) :
    ∃ c ch, t.mq.conn = some c ∧ (t.step E a).1.mq.ch = some ch ∧
      Event.NotifyClose (Handle.conn c) ∈ (t.step E a).2 ∧
      (∀ x, Event.NotifyClose (Handle.chan x) ∉ (t.step E a).2) ∧
      (t.step E a).1.chanWatcher =
        { pc := Pc.waiting, registered := Handle.conn c :: t.chanWatcher.registered } := by
  obtain ⟨c, ch, w1, hc, hch, hw, hevs⟩ := step_opens_events E a t h
  refine ⟨c, ch, hc, hch, ?_, ?_, hw⟩
  · rw [hevs]; simp
  · intro x hx
    rw [hevs] at hx
    simp only [List.mem_append, List.mem_cons, List.mem_singleton, List.not_mem_nil,
      or_false] at hx
    rcases hx with (hx | hx) | hx
    · rcases hx with hx | hx
      · cases hx
      · cases hx
    · have := reinitExchanges_only E w1 _ _ hx
      simp [Event.declared, Event.reported] at this
    · split at hx
      · simp at hx
      · simp at hx

/-- The first channel open of `sys0` on the accepting broker: connection 1, channel 7, the
registration is on connection 1 and channel 7 has none. -/
theorem watchChannel_registers_on_connection_witness :
    opensChannel (sys0.step env0 (Action.watchChannel none)).2 = true ∧
    (sys0.step env0 (Action.watchChannel none)).2 =
      [Event.Channel 1 (Answer.ok 7), Event.NotifyClose (Handle.conn 1), Event.readyc] ∧
    (sys0.step env0 (Action.watchChannel none)).1.mq.ch = some 7 ∧
    (sys0.step env0 (Action.watchChannel none)).1.chanWatcher.registered = [Handle.conn 1] ∧
    Handle.chan 7 ∉ (sys0.step env0 (Action.watchChannel none)).1.chanWatcher.registered ∧
    (∃ c ch, sys0.mq.conn = some c ∧
      (sys0.step env0 (Action.watchChannel none)).1.mq.ch = some ch ∧
      Event.NotifyClose (Handle.conn c) ∈ (sys0.step env0 (Action.watchChannel none)).2 ∧
      (∀ x, Event.NotifyClose (Handle.chan x) ∉
        (sys0.step env0 (Action.watchChannel none)).2) ∧
      (sys0.step env0 (Action.watchChannel none)).1.chanWatcher =
        { pc := Pc.waiting, registered := Handle.conn c :: sys0.chanWatcher.registered }) :=
  ⟨by decide, by decide, by decide, by decide, by decide,
    watchChannel_registers_on_connection env0 (Action.watchChannel none) sys0 (by decide)⟩

/-- C10: whenever New succeeds, under any broker, url and client type, the first step of
watchConnection on the client it returns finds the connection that New dialled, performs
no event (no NotifyClose), and leaves the watcher blocked on its closure-notification
stream with that connection still held and the stream registered nowhere. -/
theorem watchConnection_initial_unregistered {σ : Type} (E : Env σ) (w : σ)
    (amqpURL : String) (atype : MQType) (s : MQ)
    (h : (New E w amqpURL atype).2.1 = some s) (recv : GoError) :
    ∃ c, s.conn = some c ∧
      ((s.runWatchers (New E w amqpURL atype).1).step E (Action.watchConnection recv)).2 = [] ∧
      ((s.runWatchers (New E w amqpURL atype).1).step E
        (Action.watchConnection recv)).1.connWatcher = { pc := Pc.waiting, registered := [] } ∧
      ((s.runWatchers (New E w amqpURL atype).1).step E
        (Action.watchConnection recv)).1.mq.conn = some c ∧
      Handle.conn c ∉ ((s.runWatchers (New E w amqpURL atype).1).step E
        (Action.watchConnection recv)).1.connWatcher.registered := by
  rcases hd : E.Dial w amqpURL with ⟨w1, c | e⟩
  · simp only [New, hd, Option.some.injEq] at h
    subst h
    exact ⟨c, rfl, by simp [System.step, System.watchConnection, MQ.runWatchers]⟩
  · simp [New, hd] at h

/-- The client `fresh0` is what New returns on the accepting broker; its connection
watcher blocks with connection 1 held and nothing registered. -/
theorem watchConnection_initial_unregistered_witness :
    (New env0 () "amqp://192.168.99.100:5672" Unknown).2.1 = some fresh0 ∧
    (sys0.step env0 (Action.watchConnection none)).2 = [] ∧
    (sys0.step env0 (Action.watchConnection none)).1.connWatcher =
      { pc := Pc.waiting, registered := [] } ∧
    (sys0.step env0 (Action.watchConnection none)).1.mq.conn = some 1 ∧
    (∃ c, fresh0.conn = some c ∧
      ((fresh0.runWatchers (New env0 () "amqp://192.168.99.100:5672" Unknown).1).step env0
        (Action.watchConnection none)).2 = [] ∧
      ((fresh0.runWatchers (New env0 () "amqp://192.168.99.100:5672" Unknown).1).step env0
        (Action.watchConnection none)).1.connWatcher = { pc := Pc.waiting, registered := [] } ∧
      ((fresh0.runWatchers (New env0 () "amqp://192.168.99.100:5672" Unknown).1).step env0
        (Action.watchConnection none)).1.mq.conn = some c ∧
      Handle.conn c ∉
        ((fresh0.runWatchers (New env0 () "amqp://192.168.99.100:5672" Unknown).1).step env0
          (Action.watchConnection none)).1.connWatcher.registered) :=
  ⟨rfl, by decide, by decide, by decide,
    watchConnection_initial_unregistered env0 () "amqp://192.168.99.100:5672" Unknown fresh0
      rfl none⟩

/-- After a dial made by watchConnection itself the stream is registered on the new
connection: the sibling path of the one that New leaves out. -/
theorem watchConnection_dial_registers {σ : Type} (E : Env σ) (recv : GoError)
    (t : System σ) (c : ConnHandle) (hcr : t.crashed = false)
    (hpc : t.connWatcher.pc = Pc.top)
    (hconn : t.mq.conn = none) (hd : (E.Dial t.world t.mq.amqpURL).2 = Answer.ok c) :
    (t.step E (Action.watchConnection recv)).1.mq.conn = some c ∧
    (t.step E (Action.watchConnection recv)).1.connWatcher.pc = Pc.waiting ∧
    Handle.conn c ∈ (t.step E (Action.watchConnection recv)).1.connWatcher.registered ∧
    Event.NotifyClose (Handle.conn c) ∈ (t.step E (Action.watchConnection recv)).2 := by
  rcases hd2 : E.Dial t.world t.mq.amqpURL with ⟨w1, c2 | e⟩
  · rw [hd2] at hd
    cases hd
    simp [System.step, System.watchConnection, hcr, hpc, hconn, hd2]
  · rw [hd2] at hd
    cases hd

end publisher

/-! ## The delivery dispatcher -/

namespace mq

/-- When the key built from the exchange of the delivery has no handler, the iteration dies
on the call of the nil handler: no call is made on the delivery and the loop serves
nothing further. -/
theorem serveStep_miss (hs : String → Option handler) (d : Delivery)
    (h : hs (d.Exchange ++ ":fanout") = none) :
    API.serveStep hs d = Served.panicked ∧
    ∀ ds, API.serveLoop hs (d :: ds) = ([], false) := by
  have : API.serveStep hs d = Served.panicked := by simp [API.serveStep, API.lookup, h]
  exact ⟨this, fun ds => by simp [API.serveLoop, this]⟩


/-- C1: for every handler table, every delivery d and every handler h that the serve loop
finds for d, whatever h returns on d, one iteration makes exactly one call on d and goes
on to the next iteration: Ack(false) when h returns no error, Nack(false, true) when h
returns an error and d.Redelivered is false, Ack(false) when h returns an error and
d.Redelivered is true. The list of calls is always a singleton, so never both an ack and a
nack, and the loop serves the deliveries that follow d. -/
theorem serveStep_one_disposition (hs : String → Option handler) (d : Delivery) (h : handler)
    (hh : hs (d.Exchange ++ ":fanout") = some h) :
    (h d = none → API.serveStep hs d = Served.continued [Disposition.Ack false]) ∧
    (h d ≠ none → d.Redelivered = false →
      API.serveStep hs d = Served.continued [Disposition.Nack false true]) ∧
    (h d ≠ none → d.Redelivered = true →
      API.serveStep hs d = Served.continued [Disposition.Ack false]) ∧
    (∃ x, API.serveStep hs d = Served.continued [x] ∧
      ∀ ds, API.serveLoop hs (d :: ds) =
        ((d, [x]) :: (API.serveLoop hs ds).1, (API.serveLoop hs ds).2)) := by
  have hl : API.lookup hs d = some h := hh
  refine ⟨?_, ?_, ?_, ?_⟩
  · intro he
    simp [API.serveStep, hl, he]
  · intro he hr
    obtain ⟨e, he⟩ := Option.ne_none_iff_exists'.mp he
    simp [API.serveStep, hl, he, hr]
  · intro he hr
    obtain ⟨e, he⟩ := Option.ne_none_iff_exists'.mp he
    simp [API.serveStep, hl, he, hr]
  · cases he : h d with
    | none =>
      have hs1 : API.serveStep hs d = Served.continued [Disposition.Ack false] := by
        simp [API.serveStep, hl, he]
      exact ⟨_, hs1, fun ds => by simp [API.serveLoop, hs1]⟩
    | some e =>
      cases hr : d.Redelivered with
      | false =>
        have hs1 : API.serveStep hs d = Served.continued [Disposition.Nack false true] := by
          simp [API.serveStep, hl, he, hr]
        exact ⟨_, hs1, fun ds => by simp [API.serveLoop, hs1]⟩
      | true =>
        have hs1 : API.serveStep hs d = Served.continued [Disposition.Ack false] := by
          simp [API.serveStep, hl, he, hr]
        exact ⟨_, hs1, fun ds => by simp [API.serveLoop, hs1]⟩

theorem serveStep_one_disposition_witness :
    handlers json0 (alarmBad.Exchange ++ ":fanout") = some (handleAlarm json0) ∧
    handleAlarm json0 alarmBad ≠ none ∧ alarmBad.Redelivered = false ∧
    API.serveStep (handlers json0) alarmBad = Served.continued [Disposition.Nack false true] :=
  ⟨rfl, by decide, rfl,
    (serveStep_one_disposition (handlers json0) alarmBad (handleAlarm json0) rfl).2.1
      (by decide) rfl⟩

/-- C8, counterexample: for the delivery `alarm0` (exchange "alarm", message type empty) the
key made of the exchange and type fields, "alarm:", has no handler, yet the serve loop
finds a handler, the one under "alarm:fanout", runs it and acknowledges the delivery; and
the delivery `alarmTopic`, which differs from `alarm0` in its type field only, gets the
same handler. -/
theorem serveStep_ignores_delivery_type :
    API.lookupByType (handlers json0) alarm0 = none ∧
    (API.lookup (handlers json0) alarm0).isSome = true ∧
    API.lookup (handlers json0) alarm0 ≠ API.lookupByType (handlers json0) alarm0 ∧
    API.serveStep (handlers json0) alarm0 = Served.continued [Disposition.Ack false] ∧
    alarmTopic.Kind ≠ alarm0.Kind ∧
    API.lookup (handlers json0) alarmTopic = API.lookup (handlers json0) alarm0 := by
  refine ⟨rfl, by decide, ?_, by decide, by decide, rfl⟩
  intro h
  have : (API.lookup (handlers json0) alarm0).isSome = true := by decide
  rw [h] at this
  revert this
  decide

/-- C8, amended: for every delivery d taken from the delivery bus, the serve loop looks up
the handler under the key d.Exchange + ":fanout" (the exchange field of the delivery and a
constant suffix); when that key has a handler, the calls made on d are decided by the
result of exactly that handler on d; and the handler chosen is the same for every delivery
with the same exchange field, whatever its type field is. -/
theorem serveStep_lookup_by_exchange (hs : String → Option handler) (d : Delivery) :
    API.lookup hs d = hs (d.Exchange ++ ":fanout") ∧
    (∀ h, hs (d.Exchange ++ ":fanout") = some h →
      API.serveStep hs d =
        Served.continued
          [if (h d).isSome && !d.Redelivered then Disposition.Nack false true
           else Disposition.Ack false]) ∧
    (∀ d2 : Delivery, d2.Exchange = d.Exchange → API.lookup hs d2 = API.lookup hs d) := by
  refine ⟨rfl, ?_, ?_⟩
  · intro h hh
    have hl : API.lookup hs d = some h := hh
    cases he : h d <;> cases hr : d.Redelivered <;> simp [API.serveStep, hl, he, hr]
  · intro d2 h2
    simp [API.lookup, h2]

/-- The undecodable first delivery `alarmBad` is handled by the handler under
"alarm:fanout" and negatively acknowledged with requeue. -/
theorem serveStep_lookup_by_exchange_witness :
    handlers json0 (alarmBad.Exchange ++ ":fanout") = some (handleAlarm json0) ∧
    API.serveStep (handlers json0) alarmBad =
      Served.continued
        [if (handleAlarm json0 alarmBad).isSome && !alarmBad.Redelivered then
            Disposition.Nack false true
         else Disposition.Ack false] :=
  ⟨rfl, (serveStep_lookup_by_exchange (handlers json0) alarmBad).2.1 (handleAlarm json0) rfl⟩

/-- A delivery published through the default exchange has no handler: the iteration dies
without a call on the delivery. -/
theorem serveStep_default_exchange :
    API.serveStep (handlers json0) direct0 = Served.panicked := by
  decide

end mq

end mqplay
